import Mathlib

/-!
A verification development for the godi dependency-injection and routing
library.  The definitions are a shallow embedding of the Go source:

* `runGuards`, `getGuards`, `getHandler`, `getPath` embed the controller
  dispatch code (controller.go).
* `newModuleE` and its helpers embed the module-graph build (module.go,
  godi.go).
* The container scope collaborator (uber's dig) is external to the
  repository; its visibility semantics (`resolvable`) are modelled from the
  specification of the collaborator.
-/

namespace Godi

/-! ## Guards, dispatch and path joining (controller.go) -/

/-- A guard capability: `Allow(context) (bool, error)`.  Errors are modelled
as `Option String` (`none` = nil error). -/
abbrev Guard (Ctx : Type) := Ctx → Bool × Option String

/-- A route as seen at dispatch time: its resolved route-scoped guard
instances and its handler.  The handler's effect is abstracted as a value of
type `A`; producing it models executing the handler. -/
structure Route (Ctx A : Type) where
  guards : List (Guard Ctx)
  handler : A

/-- A controller as seen at dispatch time: its resolved controller-scoped
guard instances. -/
structure Ctrl (Ctx : Type) where
  guards : List (Guard Ctx)

/-- Embeds `controller.getGuards`: `append(c.guards, r.guards...)` — the
controller-scoped guards followed by the route-scoped guards. -/
def getGuards {Ctx A : Type} (c : Ctrl Ctx) (r : Route Ctx A) : List (Guard Ctx) :=
  c.guards ++ r.guards

/-- Embeds `controller.runGuards`: iterate the guards in order, calling
`Allow(gCtx)`; on the first guard with `!allowed || err != nil` return
`(false, err)`; if the loop completes return `(true, nil)`. -/
def runGuards {Ctx : Type} (gCtx : Ctx) : List (Guard Ctx) → Bool × Option String
  | [] => (true, none)
  | g :: rest =>
    let r := g gCtx
    if (!r.1) || r.2.isSome then (false, r.2) else runGuards gCtx rest

/-- The externally observable response of the dispatch handler built by
`controller.getHandler`. -/
inductive Response (A : Type) where
  | forbidden : Response A
  | serverError : Response A
  | handled : A → Response A
deriving DecidableEq, Repr

/-- Embeds the `http.HandlerFunc` closure built by `controller.getHandler`:
run the combined guard chain; if `!allowed` respond 403 Forbidden; else if
`err != nil` respond 500 Internal Server Error; else run the route handler. -/
def getHandler {Ctx A : Type} (c : Ctrl Ctx) (r : Route Ctx A) (gCtx : Ctx) : Response A :=
  let res := runGuards gCtx (getGuards c r)
  if !res.1 then .forbidden
  else if res.2.isSome then .serverError
  else .handled r.handler

/-- Embeds Go's `cmp.Or` at type `string`: the first non-zero (non-empty)
value. -/
def cmpOr (a b : String) : String :=
  if a = "" then b else a

/-- Embeds `strings.TrimPrefix`: drop `pre` from the front of `s` when it is
a prefix, otherwise return `s` unchanged.  (Computed over the character
sequences so that concrete instances evaluate.) -/
def trimPrefixStr (s pre : String) : String :=
  if pre.data.isPrefixOf s.data then ⟨s.data.drop pre.data.length⟩ else s

/-- Embeds `strings.TrimSpace`: remove leading and trailing whitespace. -/
def trimSpaceStr (s : String) : String :=
  ⟨((s.data.dropWhile Char.isWhitespace).reverse.dropWhile Char.isWhitespace).reverse⟩

/-- Embeds `strings.Join`: the elements separated by `sep`. -/
def joinStr (sep : String) : List String → String
  | [] => ""
  | [s] => s
  | s :: rest => s ++ sep ++ joinStr sep rest

/-- Embeds `controller.getPath`:
`root := cmp.Or(pattern, "/")`; `path := strings.TrimPrefix(r.Pattern, "/")`;
result `strings.TrimSpace(fmt.Sprintf("%s %s", method, strings.Join([]string{root, path}, "/")))`. -/
def getPath (ctrlPattern method routePattern : String) : String :=
  let root := cmpOr ctrlPattern "/"
  let path := trimPrefixStr routePattern "/"
  trimSpaceStr (method ++ " " ++ joinStr "/" [root, path])

/-! ## Controller guard aggregation (controller.go `_registerGuards`)

Guard *registration* is modelled separately from guard *evaluation*: here a
guard is an opaque value of a type `G` (the resolved instance identity) and
the state of the module scope's "guards" named group is the ordered list of
guards registered into it so far. -/

/-- The guard declarations of one controller configuration: the value
instances (`ControllerConfig.Guards`, each wrapped by `_registerGuards` in a
fresh constructor closure) and the constructors
(`ControllerConfig.GuardsCtors`). -/
structure CtrlGuardDecl (G : Type) where
  guards : List G
  guardsCtors : List G
deriving DecidableEq, Repr

/-- Embeds `controller._registerGuards`: provide each guard value and then
each guard constructor into the module scope under the named group
"guards", then invoke the group collection and store the result as this
controller's `guards` field.  The group collection — an external dig
capability — is modelled from the spec: a multimap keyed by group label
with deterministic iteration order equal to registration order, so the
collected list is the whole group registered in the module scope so far.
Returns (new group state, resolved controller guard list). -/
def registerGuardsB {G : Type} (c : CtrlGuardDecl G) (groupSt : List G) : List G × List G :=
  let st := groupSt ++ c.guards ++ c.guardsCtors
  (st, st)

/-- Embeds the controller-building loop of `module._registerControllers`:
controllers are built in registration order, each running
`_registerGuards` against the shared module scope.  Returns the resolved
controller-scoped guard list of each controller, in build order. -/
def buildCtrlGuards {G : Type} : List (CtrlGuardDecl G) → List G → List (List G)
  | [], _ => []
  | c :: rest, st =>
    let r := registerGuardsB c st
    r.2 :: buildCtrlGuards rest r.1

/-! ## Module graph build (module.go, godi.go)

`GetToken` (token.go, not in the sources) yields a stable identity per
constructor / module type; tokens are modelled as the identities
themselves (`Nat`).  A container scope is identified by the path of
`Scope(name)` calls that created it from the root container; since dig
creates a fresh scope per call, the path records the import position
together with the token. -/

/-- A constructor / module identity (`GetToken`). -/
abbrev Token := Nat

/-- A container scope, identified by the chain of child-scope creations
from the root container: one `(import position, token)` entry per
`Scope(GetToken(mod))` call. -/
abbrev Path := List (Nat × Token)

/-- The named groups used by the build (group.go). -/
inductive DigGroup where
  | controllers
  | guards
deriving DecidableEq, Repr

/-- One successful `Provide` call recorded against the container: the scope
it was made in, the token of the provided constructor, whether it was
marked `dig.Export(true)`, and the named group, if any. -/
structure Reg where
  scope : Path
  token : Token
  exported : Bool
  group : Option DigGroup
deriving DecidableEq, Repr

/-- A controller declaration as seen by the module build: the token of its
constructor (`ControllersCtors` entry) and the tokens of the guards its
construction registers (`ControllerConfig.Guards` wrapped in closures,
followed by `ControllerConfig.GuardsCtors`). -/
structure CtrlDecl where
  token : Token
  guardToks : List Token
deriving DecidableEq, Repr

/-- A module declaration (`Module` + its `ModuleConfig`), fields in the
order of `ModuleConfig`: the module's own identity token, `IsGlobal`,
`Imports`, `Exports`, `ExportsCtors`, `Providers`, `ProvidersCtors`,
`Controllers`, `ControllersCtors`. -/
inductive ModuleDecl where
  | mk (token : Token) (isGlobal : Bool) (imports : List ModuleDecl)
       (exports exportsCtors providers providersCtors : List Token)
       (controllers controllersCtors : List CtrlDecl)

def ModuleDecl.token : ModuleDecl → Token
  | .mk t _ _ _ _ _ _ _ _ => t

def ModuleDecl.isGlobal : ModuleDecl → Bool
  | .mk _ g _ _ _ _ _ _ _ => g

def ModuleDecl.imports : ModuleDecl → List ModuleDecl
  | .mk _ _ l _ _ _ _ _ _ => l

def ModuleDecl.exports : ModuleDecl → List Token
  | .mk _ _ _ l _ _ _ _ _ => l

def ModuleDecl.exportsCtors : ModuleDecl → List Token
  | .mk _ _ _ _ l _ _ _ _ => l

def ModuleDecl.providers : ModuleDecl → List Token
  | .mk _ _ _ _ _ l _ _ _ => l

def ModuleDecl.providersCtors : ModuleDecl → List Token
  | .mk _ _ _ _ _ _ l _ _ => l

def ModuleDecl.controllers : ModuleDecl → List CtrlDecl
  | .mk _ _ _ _ _ _ _ l _ => l

def ModuleDecl.controllersCtors : ModuleDecl → List CtrlDecl
  | .mk _ _ _ _ _ _ _ _ l => l

/-- Embeds `module.isExportedProvider`: the constructor's token matches the
token of some entry of `ExportsCtors` (and only of `ExportsCtors`; the
value-based `Exports` list is not consulted). -/
def isExportedProvider (m : ModuleDecl) (t : Token) : Bool :=
  m.exportsCtors.any (fun e => e == t)

/-- Whether any registration-relevant list of this module declaration
(constructor lists; not the value-based `Providers` / `Exports` fields)
mentions token `t`. -/
def mentionsTok (m : ModuleDecl) (t : Token) : Bool :=
  m.providersCtors.contains t || m.exportsCtors.contains t ||
    m.controllersCtors.any (fun c => c.token == t || c.guardToks.contains t)

/-- The container collaborator's failure behaviour is external (dig decides
when a `Provide` call errors, e.g. on conflicting registrations); it is
abstracted as an oracle telling whether the `Provide` of a given token in a
given scope fails. -/
abbrev Oracle := Path → Token → Bool

/-- Build errors, one constructor per error-producing site: `digErr` is the
underlying container error, the others mirror the `fmt.Errorf` wrapping
sites in module.go / controller.go, each named after the stage description
the Go code wraps with. -/
inductive BuildErr where
  | digErr (scope : Path) (tok : Token)
  | errProvidingProvider (tok : Token) (e : BuildErr)
  | errRegisteringProviders (e : BuildErr)
  | errProvidingController (tok : Token) (e : BuildErr)
  | errRegisteringControllers (e : BuildErr)
  | errProvidingGuard (tok : Token) (e : BuildErr)
  | errRegisteringGuards (e : BuildErr)
  | errBuildingModule (tok : Token) (e : BuildErr)
  | errProvidingExport (tok : Token) (e : BuildErr)
  | errRegisteringExports (e : BuildErr)
deriving DecidableEq, Repr

/-- Whether the outermost layer of the error is a stage description (a
`fmt.Errorf` wrap), rather than a bare container error. -/
def hasStageDesc : BuildErr → Bool
  | .digErr _ _ => false
  | _ => true

/-- The originating container error at the bottom of a wrapped chain
(`errors.Unwrap` applied to a fixpoint). -/
def origin : BuildErr → BuildErr
  | .digErr p t => .digErr p t
  | .errProvidingProvider _ e => origin e
  | .errRegisteringProviders e => origin e
  | .errProvidingController _ e => origin e
  | .errRegisteringControllers e => origin e
  | .errProvidingGuard _ e => origin e
  | .errRegisteringGuards e => origin e
  | .errBuildingModule _ e => origin e
  | .errProvidingExport _ e => origin e
  | .errRegisteringExports e => origin e

/-- Embeds the loop of `module._registerProviders`: provide each entry of
`ProvidersCtors` into the module scope, marked `dig.Export` exactly when the
module is global and the constructor is an exported provider; the first
failing `Provide` aborts, wrapped as "error providing provider". -/
def regProvidersLoop (o : Oracle) (p : Path) (m : ModuleDecl) :
    List Token → Except BuildErr (List Reg)
  | [] => .ok []
  | t :: rest =>
    if o p t then .error (.errProvidingProvider t (.digErr p t))
    else
      match regProvidersLoop o p m rest with
      | .error e => .error e
      | .ok rs => .ok (⟨p, t, m.isGlobal && isExportedProvider m t, none⟩ :: rs)

/-- Embeds `module._registerProviders`. -/
def _registerProviders (o : Oracle) (m : ModuleDecl) (p : Path) : Except BuildErr (List Reg) :=
  regProvidersLoop o p m m.providersCtors

/-- Embeds the provide loop of `module._registerControllers`: each entry of
`ControllersCtors` is provided into the module scope under the named group
"controllers". -/
def regCtrlProvideLoop (o : Oracle) (p : Path) : List CtrlDecl → Except BuildErr (List Reg)
  | [] => .ok []
  | c :: rest =>
    if o p c.token then .error (.errProvidingController c.token (.digErr p c.token))
    else
      match regCtrlProvideLoop o p rest with
      | .error e => .error e
      | .ok rs => .ok (⟨p, c.token, false, some .controllers⟩ :: rs)

/-- Embeds the provide loops of `controller._registerGuards`: each guard is
provided into the module scope under the named group "guards". -/
def regGuardLoop (o : Oracle) (p : Path) : List Token → Except BuildErr (List Reg)
  | [] => .ok []
  | g :: rest =>
    if o p g then .error (.errProvidingGuard g (.digErr p g))
    else
      match regGuardLoop o p rest with
      | .error e => .error e
      | .ok rs => .ok (⟨p, g, false, some .guards⟩ :: rs)

/-- Embeds the guard-registration stage of `newController`: a failure of
`_registerGuards` is wrapped as "error registering guards".  (Route
registration, route.go, is outside the build model; it registers no
providers.) -/
def newControllerA (o : Oracle) (p : Path) (c : CtrlDecl) : Except BuildErr (List Reg) :=
  match regGuardLoop o p c.guardToks with
  | .error e => .error (.errRegisteringGuards e)
  | .ok rs => .ok rs

/-- Embeds the `Invoke` of `module._registerControllers`: build each
registered controller of this module in registration order. -/
def ctrlInvokeLoop (o : Oracle) (p : Path) : List CtrlDecl → Except BuildErr (List Reg)
  | [] => .ok []
  | c :: rest =>
    match newControllerA o p c with
    | .error e => .error e
    | .ok rs =>
      match ctrlInvokeLoop o p rest with
      | .error e => .error e
      | .ok rs2 => .ok (rs ++ rs2)

/-- Embeds `module._registerControllers`: provide the controller
constructors, then invoke the group collection building each controller. -/
def _registerControllers (o : Oracle) (m : ModuleDecl) (p : Path) : Except BuildErr (List Reg) :=
  match regCtrlProvideLoop o p m.controllersCtors with
  | .error e => .error e
  | .ok rs =>
    match ctrlInvokeLoop o p m.controllersCtors with
    | .error e => .error e
    | .ok rs2 => .ok (rs ++ rs2)

/-- Embeds the loop of `module._registerExportedProviders`: each entry of
the exporting module's `ExportsCtors` is provided into the parent scope
(no export mark, no group). -/
def regExportLoop (o : Oracle) (pp : Path) : List Token → Except BuildErr (List Reg)
  | [] => .ok []
  | t :: rest =>
    if o pp t then .error (.errProvidingExport t (.digErr pp t))
    else
      match regExportLoop o pp rest with
      | .error e => .error e
      | .ok rs => .ok (⟨pp, t, false, none⟩ :: rs)

/-- Embeds `module._registerExportedProviders`, called on a child module
whose parent scope is `pp`: a global module registers nothing (its exports
are already globally visible); otherwise each export constructor is
provided into the parent scope. -/
def _registerExportedProviders (o : Oracle) (child : ModuleDecl) (pp : Path) :
    Except BuildErr (List Reg) :=
  if child.isGlobal then .ok [] else regExportLoop o pp child.exportsCtors

/-- A module instance (`module` struct): the wrapped declaration, the scope
bound to it, and the ordered list of imported child instances
(`module.imports`, appended by `assignParent` in build order; the parent
back-reference is represented by the nesting). -/
inductive ModInst where
  | mk (decl : ModuleDecl) (scope : Path) (imports : List ModInst)

mutual
/-- Embeds `newModule`: register the module's own providers (failures
wrapped "error registering providers"), register and build its controllers
(failures wrapped "error registering controllers"), then for each declared import
in order: recursively build it in a child scope of this module's scope
(failures wrapped "error building module"), link it to the parent,
and register its exported providers into this module's scope (failures
wrapped "error registering exports").  Returns the module instance and the
ordered registrations made. -/
def newModuleE (o : Oracle) : ModuleDecl → Path → Except BuildErr (ModInst × List Reg)
  | m@(.mk _ _ imps _ _ _ _ _ _), p =>
    match _registerProviders o m p with
    | .error e => .error (.errRegisteringProviders e)
    | .ok r1 =>
      match _registerControllers o m p with
      | .error e => .error (.errRegisteringControllers e)
      | .ok r2 =>
        match buildImports o imps p 0 with
        | .error e => .error e
        | .ok (insts, r3) => .ok (.mk m p insts, r1 ++ r2 ++ r3)

/-- Embeds the import loop of `newModule`: the import at position `i` is
built in the child scope `p ++ [(i, token)]` created by
`mod.newChildScope(imported)` from this module's scope `p`. -/
def buildImports (o : Oracle) : List ModuleDecl → Path → Nat →
    Except BuildErr (List ModInst × List Reg)
  | [], _, _ => .ok ([], [])
  | c :: rest, p, i =>
    match newModuleE o c (p ++ [(i, c.token)]) with
    | .error e => .error (.errBuildingModule c.token e)
    | .ok (inst, regs) =>
      match _registerExportedProviders o c p with
      | .error e => .error (.errRegisteringExports e)
      | .ok eregs =>
        match buildImports o rest p (i + 1) with
        | .error e => .error e
        | .ok (insts, rs) => .ok (inst :: insts, regs ++ eregs ++ rs)
end

/-- The registrations `module._registerProviders` makes for module `m` in
scope `p` when it succeeds. -/
def providerRegs (m : ModuleDecl) (p : Path) : List Reg :=
  m.providersCtors.map (fun t => ⟨p, t, m.isGlobal && isExportedProvider m t, none⟩)

/-- The registrations `module._registerControllers` makes for module `m` in
scope `p` when it succeeds. -/
def controllerRegs (m : ModuleDecl) (p : Path) : List Reg :=
  m.controllersCtors.map (fun c => (⟨p, c.token, false, some .controllers⟩ : Reg))
    ++ (m.controllersCtors.map
        (fun c => c.guardToks.map (fun g => (⟨p, g, false, some .guards⟩ : Reg)))).flatten

/-- The registrations a module makes directly in its own scope. -/
def localRegs (m : ModuleDecl) (p : Path) : List Reg :=
  providerRegs m p ++ controllerRegs m p

/-- The registrations `module._registerExportedProviders` makes into the
parent scope `pp` for child `c` when it succeeds: none when the child is
global, otherwise one plain registration per export constructor. -/
def exportRegs (c : ModuleDecl) (pp : Path) : List Reg :=
  if c.isGlobal then [] else c.exportsCtors.map (fun t => (⟨pp, t, false, none⟩ : Reg))

mutual
/-- The registrations a successful `newModule` build of `m` in scope `p`
makes, in order. -/
def specRegs : ModuleDecl → Path → List Reg
  | m@(.mk _ _ imps _ _ _ _ _ _), p => localRegs m p ++ specRegsImports imps p 0

/-- The registrations the import loop of a successful build makes:
for each child in order, the recursive build in the child scope followed by
the export propagation into the parent scope. -/
def specRegsImports : List ModuleDecl → Path → Nat → List Reg
  | [], _, _ => []
  | c :: rest, p, i =>
    specRegs c (p ++ [(i, c.token)]) ++ exportRegs c p ++ specRegsImports rest p (i + 1)
end

mutual
/-- The module instance a successful build of `m` in scope `p` returns. -/
def specInst : ModuleDecl → Path → ModInst
  | m@(.mk _ _ imps _ _ _ _ _ _), p => .mk m p (specInstImports imps p 0)

/-- The child instances of a successful import loop, in declaration
order. -/
def specInstImports : List ModuleDecl → Path → Nat → List ModInst
  | [], _, _ => []
  | c :: rest, p, i => specInst c (p ++ [(i, c.token)]) :: specInstImports rest p (i + 1)
end

/-- Modelled from the spec: the container scope collaborator (dig) is an
external hierarchical registry — a typed (non-grouped) registration is
resolvable from the scope it was made in and from every descendant scope,
and a registration marked exported is resolvable from every scope of the
container. -/
def Reg.visibleFrom (r : Reg) (s : Path) : Bool :=
  r.group == none && (r.exported || r.scope.isPrefixOf s)

/-- Token `t` can be resolved as a typed dependency from scope `s` given
the recorded registrations. -/
def resolvable (regs : List Reg) (t : Token) (s : Path) : Bool :=
  regs.any (fun r => r.token == t && r.visibleFrom s)

/-- `OccursAt root p0 m p`: in the build of `root` in scope `p0`, the
declaration `m` is built as a module instance with scope `p` (the root
itself, or reached through a chain of imports). -/
inductive OccursAt : ModuleDecl → Path → ModuleDecl → Path → Prop where
  | here (m : ModuleDecl) (p : Path) : OccursAt m p m p
  | child {root : ModuleDecl} {p0 : Path} {par : ModuleDecl} {pp : Path}
      {i : Nat} {c : ModuleDecl} :
      OccursAt root p0 par pp → par.imports[i]? = some c →
      OccursAt root p0 c (pp ++ [(i, c.token)])

/-- The token of the `*HttpServer` constructor `New` provides into the root
container. -/
def serverToken : Token := 0

/-- Embeds `godi.New`: create a container, provide the HTTP server into it
(a failure is returned unwrapped), then build the root module in the scope
`c.Scope(GetToken(module))`; a build failure is returned as-is and no App
is constructed. -/
def NewE (o : Oracle) (root : ModuleDecl) : Except BuildErr (ModInst × List Reg) :=
  if o [] serverToken then .error (.digErr [] serverToken)
  else newModuleE o root [(0, root.token)]

/-- An oracle under which every `Provide` call succeeds. -/
def oracleOk : Oracle := fun _ _ => false

/-- An oracle under which every `Provide` call fails. -/
def oracleFail : Oracle := fun _ _ => true

/-- Concrete module `M` (token 2): declares provider constructor 5 and
exports it. -/
def modM : ModuleDecl := .mk 2 false [] [] [5] [] [5] [] []

/-- Concrete module `S` (token 3): a sibling of `modM` with no providers
and no imports — in particular it does not import `modM`. -/
def modS : ModuleDecl := .mk 3 false [] [] [] [] [] [] []

/-- Concrete module `P` (token 1): imports `modM` and then `modS`. -/
def modP : ModuleDecl := .mk 1 false [modM, modS] [] [] [] [] [] []

/-- Concrete global module `G` (token 7): declares provider constructors 5
and 6 and exports only 5. -/
def modG : ModuleDecl := .mk 7 true [] [] [5] [] [5, 6] [] []

/-- Concrete module `V` (token 8): declares the component 5 only through
the value-based `Providers` and `Exports` fields, leaving every
constructor list empty. -/
def modV : ModuleDecl := .mk 8 false [] [5] [] [5] [] [] []

/-- Concrete module (token 4) with a single provider constructor 1, used to
exercise build failures. -/
def modFail : ModuleDecl := .mk 4 false [] [] [] [] [1] [] []

/-- A concrete guard that always allows (for concrete instances). -/
def allowGuard : Guard Unit := fun _ => (true, none)

/-- A concrete guard that denies with a nil error. -/
def denyGuard : Guard Unit := fun _ => (false, none)

/-- A concrete guard that returns `allowed = true` together with a non-nil
error. -/
def errGuard : Guard Unit := fun _ => (true, some "boom")

/-! ## Dispatch lemmas -/

theorem runGuards_cons_allow {Ctx : Type} (gCtx : Ctx) (g : Guard Ctx)
    (rest : List (Guard Ctx)) (h : g gCtx = (true, none)) :
    runGuards gCtx (g :: rest) = runGuards gCtx rest := by
  simp [runGuards, h]

theorem runGuards_cons_stop {Ctx : Type} (gCtx : Ctx) (g : Guard Ctx)
    (rest : List (Guard Ctx)) (h : (g gCtx).1 = false ∨ (g gCtx).2.isSome = true) :
    runGuards gCtx (g :: rest) = (false, (g gCtx).2) := by
  rcases h with h | h <;> simp [runGuards, h]

theorem runGuards_append_allow {Ctx : Type} (gCtx : Ctx) (pre l : List (Guard Ctx))
    (hpre : ∀ g ∈ pre, g gCtx = (true, none)) :
    runGuards gCtx (pre ++ l) = runGuards gCtx l := by
  induction pre with
  | nil => rfl
  | cons g rest ih =>
    rw [List.cons_append, runGuards_cons_allow gCtx g _ (hpre g (by simp))]
    exact ih fun g hg => hpre g (by simp [hg])

theorem runGuards_stop_mem {Ctx : Type} (gCtx : Ctx) (l : List (Guard Ctx)) (g : Guard Ctx)
    (hg : g ∈ l) (h : (g gCtx).1 = false ∨ (g gCtx).2.isSome = true) :
    (runGuards gCtx l).1 = false := by
  induction l with
  | nil => simp at hg
  | cons a rest ih =>
    by_cases ha : (a gCtx).1 = false ∨ (a gCtx).2.isSome = true
    · rw [runGuards_cons_stop gCtx a rest ha]
    · push_neg at ha
      have ha1 : (a gCtx).1 = true := by
        cases h1 : (a gCtx).1 <;> simp_all
      have ha2 : (a gCtx).2 = none := by
        cases h2 : (a gCtx).2 <;> simp_all
      have hane : a gCtx = (true, none) := by
        cases h3 : a gCtx; simp_all
      rw [runGuards_cons_allow gCtx a rest hane]
      rcases List.mem_cons.mp hg with rfl | hgr
      · rw [hane] at h; simp at h
      · exact ih hgr

theorem runGuards_never_true_err {Ctx : Type} (gCtx : Ctx) (l : List (Guard Ctx)) :
    runGuards gCtx l = (true, none) ∨ (runGuards gCtx l).1 = false := by
  induction l with
  | nil => exact Or.inl rfl
  | cons g rest ih =>
    by_cases hg : (g gCtx).1 = false ∨ (g gCtx).2.isSome = true
    · right; rw [runGuards_cons_stop gCtx g rest hg]
    · push_neg at hg
      have hgne : g gCtx = (true, none) := by
        have h1 : (g gCtx).1 = true := by cases h : (g gCtx).1 <;> simp_all
        have h2 : (g gCtx).2 = none := by cases h : (g gCtx).2 <;> simp_all
        cases h3 : g gCtx; simp_all
      rw [runGuards_cons_allow gCtx g rest hgne]; exact ih

theorem getHandler_forbidden_of_denied {Ctx A : Type} (c : Ctrl Ctx) (r : Route Ctx A)
    (gCtx : Ctx) (h : (runGuards gCtx (getGuards c r)).1 = false) :
    getHandler c r gCtx = Response.forbidden := by
  simp [getHandler, h]

/-! ## Claim theorems: dispatch pipeline -/

/-- C3: the guard chain evaluated at dispatch is the controller-scoped
guards followed by the route-scoped guards, and evaluation short-circuits
at the first guard returning `allowed = false` or a non-nil error: the
outcome is `(false, that guard's error)` and is the same for every
continuation of the chain past that guard — no later guard is consulted. -/
theorem guard_chain_order_and_short_circuit {Ctx A : Type} (c : Ctrl Ctx) (r : Route Ctx A)
    (gCtx : Ctx) (pre post : List (Guard Ctx)) (g : Guard Ctx)
    (hsplit : getGuards c r = pre ++ g :: post)
    (hpre : ∀ h ∈ pre, h gCtx = (true, none))
    (hdeny : (g gCtx).1 = false ∨ (g gCtx).2.isSome = true) :
    getGuards c r = c.guards ++ r.guards ∧
    runGuards gCtx (getGuards c r) = (false, (g gCtx).2) ∧
    ∀ post2 : List (Guard Ctx), runGuards gCtx (pre ++ g :: post2) = (false, (g gCtx).2) := by
  refine ⟨rfl, ?_, fun post2 => ?_⟩
  · rw [hsplit, runGuards_append_allow gCtx pre _ hpre, runGuards_cons_stop gCtx g post hdeny]
  · rw [runGuards_append_allow gCtx pre _ hpre, runGuards_cons_stop gCtx g post2 hdeny]

/-- Witness for C3: controller guards `[A, B]` and route guards `[C, D]`
where `B` denies — the chain is `[A, B, C, D]`, and the outcome `(false,
nil)` is reached without consulting `C`, `D`. -/
theorem guard_chain_order_and_short_circuit_witness :
    runGuards () (getGuards (Ctrl.mk [allowGuard, denyGuard])
      (Route.mk [errGuard, errGuard] (0 : Nat))) = (false, none) :=
  (guard_chain_order_and_short_circuit (Ctrl.mk [allowGuard, denyGuard])
    (Route.mk [errGuard, errGuard] (0 : Nat)) () [allowGuard] [errGuard, errGuard] denyGuard
    rfl (by intro h hh; simp only [List.mem_singleton] at hh; subst hh; rfl)
    (Or.inl rfl)).2.1

/-- C4, the code evaluated at the failing input: the dispatch handler never
responds with Internal-Server-Error — every request is either rejected
with Forbidden or handed to the route handler; in particular a chain
short-circuited by a guard returning a non-nil error responds with
Forbidden, exactly like a denial, because `runGuards` returns
`allowed = false` whenever a guard errors and `getHandler` tests
`!allowed` before `err != nil`. -/
theorem guard_error_responds_forbidden :
    (∀ {Ctx A : Type} (c : Ctrl Ctx) (r : Route Ctx A) (gCtx : Ctx),
      getHandler c r gCtx = Response.forbidden ∨
      getHandler c r gCtx = Response.handled r.handler) ∧
    getHandler (Ctrl.mk []) (Route.mk [errGuard] (0 : Nat)) () = Response.forbidden ∧
    getHandler (Ctrl.mk []) (Route.mk [denyGuard] (0 : Nat)) () = Response.forbidden := by
  refine ⟨?_, rfl, rfl⟩
  intro Ctx A c r gCtx
  rcases runGuards_never_true_err gCtx (getGuards c r) with h | h
  · right; simp [getHandler, h]
  · left; exact getHandler_forbidden_of_denied c r gCtx h

/-- C5: a guard returning `(true, non-nil error)` produces the same
externally observable outcome as one returning `(false, nil)` at the same
position of the same chain: in both cases the response is Forbidden (the
request is denied and the route handler is not executed). -/
theorem guard_true_error_same_as_false_nil {Ctx A : Type} (gCtx : Ctx)
    (c1 c2 : Ctrl Ctx) (r1 r2 : Route Ctx A)
    (pre post : List (Guard Ctx)) (g1 g2 : Guard Ctx) (e : String)
    (h1 : getGuards c1 r1 = pre ++ g1 :: post)
    (h2 : getGuards c2 r2 = pre ++ g2 :: post)
    (hg1 : g1 gCtx = (true, some e))
    (hg2 : g2 gCtx = (false, none)) :
    getHandler c1 r1 gCtx = Response.forbidden ∧
    getHandler c2 r2 gCtx = Response.forbidden := by
  constructor
  · refine getHandler_forbidden_of_denied c1 r1 gCtx
      (runGuards_stop_mem gCtx _ g1 ?_ (Or.inr (by simp [hg1])))
    rw [h1]; simp
  · refine getHandler_forbidden_of_denied c2 r2 gCtx
      (runGuards_stop_mem gCtx _ g2 ?_ (Or.inl (by simp [hg2])))
    rw [h2]; simp

/-- Witness for C5: a chain `[allow, (true, error)]` and a chain
`[allow, (false, nil)]` both produce Forbidden. -/
theorem guard_true_error_same_as_false_nil_witness :
    getHandler (Ctrl.mk [allowGuard]) (Route.mk [errGuard] (0 : Nat)) () = Response.forbidden ∧
    getHandler (Ctrl.mk [allowGuard]) (Route.mk [denyGuard] (0 : Nat)) () = Response.forbidden :=
  guard_true_error_same_as_false_nil () (Ctrl.mk [allowGuard]) (Ctrl.mk [allowGuard])
    (Route.mk [errGuard] (0 : Nat)) (Route.mk [denyGuard] (0 : Nat))
    [allowGuard] [] errGuard denyGuard "boom" rfl rfl rfl rfl

/-- C6 counterexample: with controller pattern `""`, method `POST` and
route pattern `"/signin"` the registered pattern is `"POST //signin"`
(doubled separator), not `"POST /signin"` as claimed; with both patterns
empty the joined path is `"//"`, not `"/"`. -/
theorem path_join_counterexample :
    (getPath "" "POST" "/signin" == "POST /signin") = false ∧
    getPath "" "POST" "/signin" = "POST //signin" ∧
    (getPath "" "POST" "" == "POST /") = false ∧
    getPath "" "POST" "" = "POST //" := by
  refine ⟨by decide, by decide, by decide, by decide⟩

/-- C6 amended: controller pattern `""` with route pattern `"/signin"` and
method `POST` yields `"POST //signin"` (the empty controller pattern
defaults to `"/"` and the join then doubles the separator); controller
pattern `"/auth"` with route pattern `"/signup"` yields
`"POST /auth/signup"` with no doubled separator; with both patterns empty
the joined path is `"//"`; the joined path is never the empty string. -/
theorem path_join_amended :
    getPath "" "POST" "/signin" = "POST //signin" ∧
    getPath "/auth" "POST" "/signup" = "POST /auth/signup" ∧
    getPath "" "POST" "" = "POST //" ∧
    ∀ cp rp : String, 0 < (joinStr "/" [cmpOr cp "/", trimPrefixStr rp "/"]).length := by
  refine ⟨by decide, by decide, by decide, fun cp rp => ?_⟩
  have h0 : joinStr "/" [cmpOr cp "/", trimPrefixStr rp "/"]
      = cmpOr cp "/" ++ "/" ++ trimPrefixStr rp "/" := rfl
  rw [h0]
  simp only [String.length_append]
  have h1 : ("/" : String).length = 1 := by decide
  omega

/-! ## Claim theorem: controller guard accumulation (C10) -/

/-- C10: controller-scoped guards accumulate in a single module-scope
group: the resolved controller-guard list of the controller at position `i`
is the initial content of the module scope's guard group, followed by every
guard registered by the previously built controllers of the module in
registration order, followed by its own declared guards (value guards then
constructor guards). -/
theorem controller_guards_accumulate {G : Type} (decls : List (CtrlGuardDecl G))
    (st0 : List G) (i : Nat) (c : CtrlGuardDecl G) (hc : decls[i]? = some c) :
    (buildCtrlGuards decls st0)[i]? =
      some (st0 ++ ((decls.take i).map (fun d => d.guards ++ d.guardsCtors)).flatten
        ++ (c.guards ++ c.guardsCtors)) := by
  induction decls generalizing i st0 with
  | nil => simp at hc
  | cons d rest ih =>
    cases i with
    | zero =>
      simp only [List.getElem?_cons_zero, Option.some_inj] at hc
      subst hc
      simp [buildCtrlGuards, registerGuardsB, List.append_assoc]
    | succ j =>
      simp only [List.getElem?_cons_succ] at hc
      simp only [buildCtrlGuards, registerGuardsB, List.getElem?_cons_succ]
      rw [ih _ j hc]
      simp [List.take_succ_cons, List.append_assoc]

/-- Witness for C10: two controllers, the first declaring guards `[1]` and
`[2]`, the second `[3]` and `[4]`; the second controller's resolved guard
list is `[1, 2, 3, 4]`. -/
theorem controller_guards_accumulate_witness :
    (buildCtrlGuards [CtrlGuardDecl.mk [1] [2], CtrlGuardDecl.mk [3] [4]]
      ([] : List Nat))[1]? = some [1, 2, 3, 4] :=
  controller_guards_accumulate [CtrlGuardDecl.mk [1] [2], CtrlGuardDecl.mk [3] [4]]
    [] 1 (CtrlGuardDecl.mk [3] [4]) (by decide)

/-! ## Build lemmas: what a successful stage registers -/

theorem regProvidersLoop_ok (o : Oracle) (p : Path) (m : ModuleDecl) :
    ∀ (l : List Token) (rs : List Reg), regProvidersLoop o p m l = .ok rs →
      rs = l.map (fun t => (⟨p, t, m.isGlobal && isExportedProvider m t, none⟩ : Reg)) := by
  intro l
  induction l with
  | nil =>
    intro rs h
    simp only [regProvidersLoop] at h
    cases h; rfl
  | cons t rest ih =>
    intro rs h
    simp only [regProvidersLoop] at h
    split at h
    · cases h
    · cases hrec : regProvidersLoop o p m rest with
      | error e => rw [hrec] at h; cases h
      | ok rs2 => rw [hrec] at h; cases h; simp [ih rs2 hrec]

theorem regCtrlProvideLoop_ok (o : Oracle) (p : Path) :
    ∀ (l : List CtrlDecl) (rs : List Reg), regCtrlProvideLoop o p l = .ok rs →
      rs = l.map (fun c => (⟨p, c.token, false, some .controllers⟩ : Reg)) := by
  intro l
  induction l with
  | nil =>
    intro rs h
    simp only [regCtrlProvideLoop] at h
    cases h; rfl
  | cons c rest ih =>
    intro rs h
    simp only [regCtrlProvideLoop] at h
    split at h
    · cases h
    · cases hrec : regCtrlProvideLoop o p rest with
      | error e => rw [hrec] at h; cases h
      | ok rs2 => rw [hrec] at h; cases h; simp [ih rs2 hrec]

theorem regGuardLoop_ok (o : Oracle) (p : Path) :
    ∀ (l : List Token) (rs : List Reg), regGuardLoop o p l = .ok rs →
      rs = l.map (fun g => (⟨p, g, false, some .guards⟩ : Reg)) := by
  intro l
  induction l with
  | nil =>
    intro rs h
    simp only [regGuardLoop] at h
    cases h; rfl
  | cons g rest ih =>
    intro rs h
    simp only [regGuardLoop] at h
    split at h
    · cases h
    · cases hrec : regGuardLoop o p rest with
      | error e => rw [hrec] at h; cases h
      | ok rs2 => rw [hrec] at h; cases h; simp [ih rs2 hrec]

theorem regExportLoop_ok (o : Oracle) (pp : Path) :
    ∀ (l : List Token) (rs : List Reg), regExportLoop o pp l = .ok rs →
      rs = l.map (fun t => (⟨pp, t, false, none⟩ : Reg)) := by
  intro l
  induction l with
  | nil =>
    intro rs h
    simp only [regExportLoop] at h
    cases h; rfl
  | cons t rest ih =>
    intro rs h
    simp only [regExportLoop] at h
    split at h
    · cases h
    · cases hrec : regExportLoop o pp rest with
      | error e => rw [hrec] at h; cases h
      | ok rs2 => rw [hrec] at h; cases h; simp [ih rs2 hrec]

theorem newControllerA_ok (o : Oracle) (p : Path) (c : CtrlDecl) (rs : List Reg)
    (h : newControllerA o p c = .ok rs) :
    rs = c.guardToks.map (fun g => (⟨p, g, false, some .guards⟩ : Reg)) := by
  simp only [newControllerA] at h
  cases hrec : regGuardLoop o p c.guardToks with
  | error e => rw [hrec] at h; cases h
  | ok rs2 => rw [hrec] at h; cases h; exact regGuardLoop_ok o p _ _ hrec

theorem ctrlInvokeLoop_ok (o : Oracle) (p : Path) :
    ∀ (l : List CtrlDecl) (rs : List Reg), ctrlInvokeLoop o p l = .ok rs →
      rs = (l.map (fun c => c.guardToks.map
        (fun g => (⟨p, g, false, some .guards⟩ : Reg)))).flatten := by
  intro l
  induction l with
  | nil =>
    intro rs h
    simp only [ctrlInvokeLoop] at h
    cases h; rfl
  | cons c rest ih =>
    intro rs h
    simp only [ctrlInvokeLoop] at h
    cases h1 : newControllerA o p c with
    | error e => rw [h1] at h; cases h
    | ok rs1 =>
      rw [h1] at h
      cases h2 : ctrlInvokeLoop o p rest with
      | error e => rw [h2] at h; cases h
      | ok rs2 =>
        rw [h2] at h; cases h
        simp [newControllerA_ok o p c rs1 h1, ih rs2 h2]

theorem _registerProviders_ok (o : Oracle) (m : ModuleDecl) (p : Path) (rs : List Reg)
    (h : _registerProviders o m p = .ok rs) : rs = providerRegs m p :=
  regProvidersLoop_ok o p m m.providersCtors rs h

theorem _registerControllers_ok (o : Oracle) (m : ModuleDecl) (p : Path) (rs : List Reg)
    (h : _registerControllers o m p = .ok rs) : rs = controllerRegs m p := by
  simp only [_registerControllers] at h
  cases h1 : regCtrlProvideLoop o p m.controllersCtors with
  | error e => rw [h1] at h; cases h
  | ok rs1 =>
    rw [h1] at h
    cases h2 : ctrlInvokeLoop o p m.controllersCtors with
    | error e => rw [h2] at h; cases h
    | ok rs2 =>
      rw [h2] at h; cases h
      rw [regCtrlProvideLoop_ok o p _ rs1 h1, ctrlInvokeLoop_ok o p _ rs2 h2]
      rfl

theorem _registerExportedProviders_ok (o : Oracle) (c : ModuleDecl) (pp : Path) (rs : List Reg)
    (h : _registerExportedProviders o c pp = .ok rs) : rs = exportRegs c pp := by
  simp only [_registerExportedProviders] at h
  by_cases hg : c.isGlobal
  · rw [if_pos hg] at h; cases h; simp [exportRegs, hg]
  · rw [if_neg hg] at h
    rw [regExportLoop_ok o pp _ rs h]
    simp [exportRegs, hg]

theorem specRegs_def (m : ModuleDecl) (p : Path) :
    specRegs m p = localRegs m p ++ specRegsImports m.imports p 0 := by
  cases m; rfl

theorem specInst_def (m : ModuleDecl) (p : Path) :
    specInst m p = ModInst.mk m p (specInstImports m.imports p 0) := by
  cases m; rfl

mutual

theorem newModuleE_ok (o : Oracle) :
    ∀ (m : ModuleDecl) (p : Path) (inst : ModInst) (regs : List Reg),
      newModuleE o m p = .ok (inst, regs) → inst = specInst m p ∧ regs = specRegs m p
  | .mk tok glob imps exps expCs provs provCs ctrls ctrlCs, p, inst, regs, h => by
    simp only [newModuleE] at h
    cases h1 : _registerProviders o (.mk tok glob imps exps expCs provs provCs ctrls ctrlCs) p with
    | error e => rw [h1] at h; cases h
    | ok r1 =>
      rw [h1] at h
      cases h2 : _registerControllers o (.mk tok glob imps exps expCs provs provCs ctrls ctrlCs) p with
      | error e => rw [h2] at h; cases h
      | ok r2 =>
        rw [h2] at h
        cases h3 : buildImports o imps p 0 with
        | error e => rw [h3] at h; cases h
        | ok pr =>
          rw [h3] at h
          obtain ⟨insts, r3⟩ := pr
          cases h
          obtain ⟨hi, hr⟩ := buildImports_ok o imps p 0 insts r3 h3
          refine ⟨by rw [specInst_def, hi]; rfl, ?_⟩
          rw [_registerProviders_ok o _ p r1 h1, _registerControllers_ok o _ p r2 h2, hr,
            specRegs_def]
          simp [localRegs, List.append_assoc]
          rfl

theorem buildImports_ok (o : Oracle) :
    ∀ (l : List ModuleDecl) (p : Path) (i : Nat) (insts : List ModInst) (regs : List Reg),
      buildImports o l p i = .ok (insts, regs) →
        insts = specInstImports l p i ∧ regs = specRegsImports l p i
  | [], p, i, insts, regs, h => by
    simp only [buildImports] at h
    cases h
    exact ⟨rfl, rfl⟩
  | c :: rest, p, i, insts, regs, h => by
    simp only [buildImports] at h
    cases h1 : newModuleE o c (p ++ [(i, c.token)]) with
    | error e => rw [h1] at h; cases h
    | ok pr1 =>
      rw [h1] at h
      obtain ⟨inst1, regs1⟩ := pr1
      cases h2 : _registerExportedProviders o c p with
      | error e => rw [h2] at h; cases h
      | ok eregs =>
        rw [h2] at h
        cases h3 : buildImports o rest p (i + 1) with
        | error e => rw [h3] at h; cases h
        | ok pr3 =>
          rw [h3] at h
          obtain ⟨insts3, regs3⟩ := pr3
          cases h
          obtain ⟨hi1, hr1⟩ := newModuleE_ok o c (p ++ [(i, c.token)]) inst1 regs1 h1
          obtain ⟨hi3, hr3⟩ := buildImports_ok o rest p (i + 1) insts3 regs3 h3
          constructor
          · rw [hi1, hi3]; rfl
          · rw [hr1, _registerExportedProviders_ok o c p eregs h2, hr3]
            simp [specRegsImports, List.append_assoc]

end

/-! ## Build lemmas: every build error is stage-wrapped -/

theorem regProvidersLoop_error (o : Oracle) (p : Path) (m : ModuleDecl) :
    ∀ (l : List Token) (e : BuildErr), regProvidersLoop o p m l = .error e →
      hasStageDesc e = true ∧ ∃ ps ts, origin e = .digErr ps ts := by
  intro l
  induction l with
  | nil => intro e h; simp only [regProvidersLoop] at h; cases h
  | cons t rest ih =>
    intro e h
    simp only [regProvidersLoop] at h
    split at h
    · cases h; exact ⟨rfl, p, t, rfl⟩
    · cases hrec : regProvidersLoop o p m rest with
      | error e2 => rw [hrec] at h; cases h; exact ih e hrec
      | ok rs => rw [hrec] at h; cases h

theorem regCtrlProvideLoop_error (o : Oracle) (p : Path) :
    ∀ (l : List CtrlDecl) (e : BuildErr), regCtrlProvideLoop o p l = .error e →
      hasStageDesc e = true ∧ ∃ ps ts, origin e = .digErr ps ts := by
  intro l
  induction l with
  | nil => intro e h; simp only [regCtrlProvideLoop] at h; cases h
  | cons c rest ih =>
    intro e h
    simp only [regCtrlProvideLoop] at h
    split at h
    · cases h; exact ⟨rfl, p, c.token, rfl⟩
    · cases hrec : regCtrlProvideLoop o p rest with
      | error e2 => rw [hrec] at h; cases h; exact ih e hrec
      | ok rs => rw [hrec] at h; cases h

theorem regGuardLoop_error (o : Oracle) (p : Path) :
    ∀ (l : List Token) (e : BuildErr), regGuardLoop o p l = .error e →
      hasStageDesc e = true ∧ ∃ ps ts, origin e = .digErr ps ts := by
  intro l
  induction l with
  | nil => intro e h; simp only [regGuardLoop] at h; cases h
  | cons g rest ih =>
    intro e h
    simp only [regGuardLoop] at h
    split at h
    · cases h; exact ⟨rfl, p, g, rfl⟩
    · cases hrec : regGuardLoop o p rest with
      | error e2 => rw [hrec] at h; cases h; exact ih e hrec
      | ok rs => rw [hrec] at h; cases h

theorem regExportLoop_error (o : Oracle) (pp : Path) :
    ∀ (l : List Token) (e : BuildErr), regExportLoop o pp l = .error e →
      hasStageDesc e = true ∧ ∃ ps ts, origin e = .digErr ps ts := by
  intro l
  induction l with
  | nil => intro e h; simp only [regExportLoop] at h; cases h
  | cons t rest ih =>
    intro e h
    simp only [regExportLoop] at h
    split at h
    · cases h; exact ⟨rfl, pp, t, rfl⟩
    · cases hrec : regExportLoop o pp rest with
      | error e2 => rw [hrec] at h; cases h; exact ih e hrec
      | ok rs => rw [hrec] at h; cases h

theorem newControllerA_error (o : Oracle) (p : Path) (c : CtrlDecl) (e : BuildErr)
    (h : newControllerA o p c = .error e) :
    hasStageDesc e = true ∧ ∃ ps ts, origin e = .digErr ps ts := by
  simp only [newControllerA] at h
  cases hrec : regGuardLoop o p c.guardToks with
  | error e2 =>
    rw [hrec] at h; cases h
    obtain ⟨_, ps, ts, horig⟩ := regGuardLoop_error o p _ e2 hrec
    exact ⟨rfl, ps, ts, horig⟩
  | ok rs => rw [hrec] at h; cases h

theorem ctrlInvokeLoop_error (o : Oracle) (p : Path) :
    ∀ (l : List CtrlDecl) (e : BuildErr), ctrlInvokeLoop o p l = .error e →
      hasStageDesc e = true ∧ ∃ ps ts, origin e = .digErr ps ts := by
  intro l
  induction l with
  | nil => intro e h; simp only [ctrlInvokeLoop] at h; cases h
  | cons c rest ih =>
    intro e h
    simp only [ctrlInvokeLoop] at h
    cases h1 : newControllerA o p c with
    | error e2 => rw [h1] at h; cases h; exact newControllerA_error o p c e h1
    | ok rs1 =>
      rw [h1] at h
      cases h2 : ctrlInvokeLoop o p rest with
      | error e2 => rw [h2] at h; cases h; exact ih e h2
      | ok rs2 => rw [h2] at h; cases h

theorem _registerProviders_error (o : Oracle) (m : ModuleDecl) (p : Path) (e : BuildErr)
    (h : _registerProviders o m p = .error e) :
    hasStageDesc e = true ∧ ∃ ps ts, origin e = .digErr ps ts :=
  regProvidersLoop_error o p m m.providersCtors e h

theorem _registerControllers_error (o : Oracle) (m : ModuleDecl) (p : Path) (e : BuildErr)
    (h : _registerControllers o m p = .error e) :
    hasStageDesc e = true ∧ ∃ ps ts, origin e = .digErr ps ts := by
  simp only [_registerControllers] at h
  cases h1 : regCtrlProvideLoop o p m.controllersCtors with
  | error e2 => rw [h1] at h; cases h; exact regCtrlProvideLoop_error o p _ e h1
  | ok rs1 =>
    rw [h1] at h
    cases h2 : ctrlInvokeLoop o p m.controllersCtors with
    | error e2 => rw [h2] at h; cases h; exact ctrlInvokeLoop_error o p _ e h2
    | ok rs2 => rw [h2] at h; cases h

theorem _registerExportedProviders_error (o : Oracle) (c : ModuleDecl) (pp : Path)
    (e : BuildErr) (h : _registerExportedProviders o c pp = .error e) :
    hasStageDesc e = true ∧ ∃ ps ts, origin e = .digErr ps ts := by
  simp only [_registerExportedProviders] at h
  split at h
  · cases h
  · exact regExportLoop_error o pp _ e h

mutual

theorem newModuleE_error (o : Oracle) :
    ∀ (m : ModuleDecl) (p : Path) (e : BuildErr), newModuleE o m p = .error e →
      hasStageDesc e = true ∧ ∃ ps ts, origin e = .digErr ps ts
  | .mk tok glob imps exps expCs provs provCs ctrls ctrlCs, p, e, h => by
    simp only [newModuleE] at h
    cases h1 : _registerProviders o (.mk tok glob imps exps expCs provs provCs ctrls ctrlCs) p with
    | error e1 =>
      rw [h1] at h; cases h
      obtain ⟨_, ps, ts, horig⟩ := _registerProviders_error o _ p e1 h1
      exact ⟨rfl, ps, ts, horig⟩
    | ok r1 =>
      rw [h1] at h
      cases h2 : _registerControllers o (.mk tok glob imps exps expCs provs provCs ctrls ctrlCs) p with
      | error e2 =>
        rw [h2] at h; cases h
        obtain ⟨_, ps, ts, horig⟩ := _registerControllers_error o _ p e2 h2
        exact ⟨rfl, ps, ts, horig⟩
      | ok r2 =>
        rw [h2] at h
        cases h3 : buildImports o imps p 0 with
        | error e3 => rw [h3] at h; cases h; exact buildImports_error o imps p 0 e h3
        | ok pr => rw [h3] at h; obtain ⟨insts, r3⟩ := pr; cases h

theorem buildImports_error (o : Oracle) :
    ∀ (l : List ModuleDecl) (p : Path) (i : Nat) (e : BuildErr),
      buildImports o l p i = .error e →
        hasStageDesc e = true ∧ ∃ ps ts, origin e = .digErr ps ts
  | [], p, i, e, h => by simp only [buildImports] at h; cases h
  | c :: rest, p, i, e, h => by
    simp only [buildImports] at h
    cases h1 : newModuleE o c (p ++ [(i, c.token)]) with
    | error e1 =>
      rw [h1] at h; cases h
      obtain ⟨_, ps, ts, horig⟩ := newModuleE_error o c (p ++ [(i, c.token)]) e1 h1
      exact ⟨rfl, ps, ts, horig⟩
    | ok pr1 =>
      rw [h1] at h
      obtain ⟨inst1, regs1⟩ := pr1
      cases h2 : _registerExportedProviders o c p with
      | error e2 =>
        rw [h2] at h; cases h
        obtain ⟨_, ps, ts, horig⟩ := _registerExportedProviders_error o c p e2 h2
        exact ⟨rfl, ps, ts, horig⟩
      | ok eregs =>
        rw [h2] at h
        cases h3 : buildImports o rest p (i + 1) with
        | error e3 => rw [h3] at h; cases h; exact buildImports_error o rest p (i + 1) e h3
        | ok pr3 => rw [h3] at h; obtain ⟨insts3, regs3⟩ := pr3; cases h

end

/-! ## Visibility lemmas -/

theorem specRegsImports_childAt :
    ∀ (l : List ModuleDecl) (p : Path) (i0 j : Nat) (c : ModuleDecl), l[j]? = some c →
      (∀ r ∈ specRegs c (p ++ [(i0 + j, c.token)]), r ∈ specRegsImports l p i0) ∧
      (∀ r ∈ exportRegs c p, r ∈ specRegsImports l p i0) := by
  intro l
  induction l with
  | nil => intro p i0 j c hc; simp at hc
  | cons d rest ih =>
    intro p i0 j c hc
    cases j with
    | zero =>
      simp only [List.getElem?_cons_zero, Option.some_inj] at hc
      subst hc
      simp only [Nat.add_zero, specRegsImports]
      constructor
      · intro r hr
        exact List.mem_append_left _ (List.mem_append_left _ hr)
      · intro r hr
        exact List.mem_append_left _ (List.mem_append_right _ hr)
    | succ j2 =>
      simp only [List.getElem?_cons_succ] at hc
      have harith : i0 + (j2 + 1) = (i0 + 1) + j2 := by omega
      rw [harith]
      obtain ⟨h1, h2⟩ := ih p (i0 + 1) j2 c hc
      simp only [specRegsImports]
      exact ⟨fun r hr => List.mem_append_right _ (h1 r hr),
        fun r hr => List.mem_append_right _ (h2 r hr)⟩

theorem occursAt_specRegs_subset {root : ModuleDecl} {p0 : Path} {m : ModuleDecl} {p : Path}
    (h : OccursAt root p0 m p) : ∀ r ∈ specRegs m p, r ∈ specRegs root p0 := by
  induction h with
  | here => exact fun r hr => hr
  | @child par pp i c hpar hidx ih =>
    intro r hr
    apply ih
    rw [specRegs_def]
    refine List.mem_append_right _ ?_
    have hch := (specRegsImports_childAt par.imports pp 0 i c hidx).1
    simp only [Nat.zero_add] at hch
    exact hch r hr

theorem occursAt_exportRegs_subset {root : ModuleDecl} {p0 : Path} {par : ModuleDecl}
    {pp : Path} (h : OccursAt root p0 par pp) {i : Nat} {c : ModuleDecl}
    (hidx : par.imports[i]? = some c) :
    ∀ r ∈ exportRegs c pp, r ∈ specRegs root p0 := by
  intro r hr
  have h2 := (specRegsImports_childAt par.imports pp 0 i c hidx).2 r hr
  refine occursAt_specRegs_subset h r ?_
  rw [specRegs_def]
  exact List.mem_append_right _ h2

theorem occursAt_trans {a : ModuleDecl} {pa : Path} {b : ModuleDecl} {pb : Path}
    {c : ModuleDecl} {pc : Path} (h1 : OccursAt a pa b pb) (h2 : OccursAt b pb c pc) :
    OccursAt a pa c pc := by
  induction h2 with
  | here => exact h1
  | child hpar hidx ih => exact .child ih hidx

theorem occursAt_leaf {m : ModuleDecl} {p : Path} (hni : m.imports = []) :
    ∀ m2 p2, OccursAt m p m2 p2 → m2 = m ∧ p2 = p := by
  intro m2 p2 h
  induction h with
  | here => exact ⟨rfl, rfl⟩
  | child hpar hidx ih =>
    obtain ⟨rfl, rfl⟩ := ih
    rw [hni] at hidx
    simp at hidx

theorem mem_localRegs_iff (m : ModuleDecl) (p : Path) (r : Reg) :
    r ∈ localRegs m p ↔
      (∃ t ∈ m.providersCtors, r = ⟨p, t, m.isGlobal && isExportedProvider m t, none⟩) ∨
      (∃ c ∈ m.controllersCtors, r = ⟨p, c.token, false, some .controllers⟩) ∨
      (∃ c ∈ m.controllersCtors, ∃ g ∈ c.guardToks, r = ⟨p, g, false, some .guards⟩) := by
  constructor
  · intro h
    rcases List.mem_append.mp h with h | h
    · rcases List.mem_map.mp h with ⟨t, ht, rfl⟩
      exact Or.inl ⟨t, ht, rfl⟩
    · rcases List.mem_append.mp h with h | h
      · rcases List.mem_map.mp h with ⟨c, hc, rfl⟩
        exact Or.inr (Or.inl ⟨c, hc, rfl⟩)
      · rcases List.mem_flatten.mp h with ⟨sub, hsub, hr⟩
        rcases List.mem_map.mp hsub with ⟨c, hc, rfl⟩
        rcases List.mem_map.mp hr with ⟨g, hg, rfl⟩
        exact Or.inr (Or.inr ⟨c, hc, g, hg, rfl⟩)
  · rintro (⟨t, ht, rfl⟩ | ⟨c, hc, rfl⟩ | ⟨c, hc, g, hg, rfl⟩)
    · exact List.mem_append_left _ (List.mem_map.mpr ⟨t, ht, rfl⟩)
    · exact List.mem_append_right _ (List.mem_append_left _ (List.mem_map.mpr ⟨c, hc, rfl⟩))
    · exact List.mem_append_right _ (List.mem_append_right _ (List.mem_flatten.mpr
        ⟨_, List.mem_map.mpr ⟨c, hc, rfl⟩, List.mem_map.mpr ⟨g, hg, rfl⟩⟩))

theorem mem_exportRegs_iff (c : ModuleDecl) (pp : Path) (r : Reg) :
    r ∈ exportRegs c pp ↔
      c.isGlobal = false ∧ ∃ t ∈ c.exportsCtors, r = ⟨pp, t, false, none⟩ := by
  by_cases hg : c.isGlobal <;> simp [exportRegs, hg, eq_comm]

theorem resolvable_iff (regs : List Reg) (t : Token) (s : Path) :
    resolvable regs t s = true ↔
      ∃ r ∈ regs, r.token = t ∧ r.group = none ∧ (r.exported = true ∨ r.scope <+: s) := by
  simp [resolvable, Reg.visibleFrom, List.any_eq_true, Bool.and_eq_true, Bool.or_eq_true,
    beq_iff_eq, List.isPrefixOf_iff_prefix]

theorem isExportedProvider_iff (m : ModuleDecl) (t : Token) :
    isExportedProvider m t = true ↔ t ∈ m.exportsCtors := by
  simp [isExportedProvider, List.any_eq_true, beq_iff_eq]

theorem mentionsTok_false_spec (m : ModuleDecl) (t : Token) (h : mentionsTok m t = false) :
    t ∉ m.providersCtors ∧ t ∉ m.exportsCtors := by
  simp only [mentionsTok, Bool.or_eq_false_iff] at h
  obtain ⟨⟨h1, h2⟩, h3⟩ := h
  exact ⟨by simpa using h1, by simpa using h2⟩

mutual

theorem mem_specRegs_src :
    ∀ (root : ModuleDecl) (p0 : Path) (r : Reg), r ∈ specRegs root p0 →
      (∃ m p, OccursAt root p0 m p ∧ r ∈ localRegs m p) ∨
      (∃ (m : ModuleDecl) (p : Path) (i : Nat) (c : ModuleDecl),
        OccursAt root p0 m p ∧ m.imports[i]? = some c ∧ r ∈ exportRegs c p)
  | .mk tok glob imps exps expCs provs provCs ctrls ctrlCs, p0, r, h => by
    rw [specRegs_def] at h
    rcases List.mem_append.mp h with h | h
    · exact Or.inl ⟨_, p0, .here _ _, h⟩
    · rcases mem_specRegsImports_src imps p0 0 r h with
        ⟨j, c, m2, p2, hj, hocc, hloc⟩ | ⟨j, c, m2, p2, i2, c2, hj, hocc, hidx, hexp⟩ |
        ⟨j, c, hj, hexp⟩
      · refine Or.inl ⟨m2, p2, occursAt_trans (OccursAt.child (.here _ p0) hj) ?_, hloc⟩
        simpa using hocc
      · refine Or.inr ⟨m2, p2, i2, c2,
          occursAt_trans (OccursAt.child (.here _ p0) hj) ?_, hidx, hexp⟩
        simpa using hocc
      · exact Or.inr ⟨_, p0, j, c, .here _ _, hj, hexp⟩

theorem mem_specRegsImports_src :
    ∀ (l : List ModuleDecl) (p : Path) (i0 : Nat) (r : Reg), r ∈ specRegsImports l p i0 →
      (∃ (j : Nat) (c : ModuleDecl) (m2 : ModuleDecl) (p2 : Path), l[j]? = some c ∧
        OccursAt c (p ++ [(i0 + j, c.token)]) m2 p2 ∧ r ∈ localRegs m2 p2) ∨
      (∃ (j : Nat) (c : ModuleDecl) (m2 : ModuleDecl) (p2 : Path) (i2 : Nat) (c2 : ModuleDecl),
        l[j]? = some c ∧
        OccursAt c (p ++ [(i0 + j, c.token)]) m2 p2 ∧ m2.imports[i2]? = some c2 ∧
        r ∈ exportRegs c2 p2) ∨
      (∃ (j : Nat) (c : ModuleDecl), l[j]? = some c ∧ r ∈ exportRegs c p)
  | [], p, i0, r, h => by simp [specRegsImports] at h
  | d :: rest, p, i0, r, h => by
    simp only [specRegsImports] at h
    rcases List.mem_append.mp h with h | h
    · rcases List.mem_append.mp h with h | h
      · rcases mem_specRegs_src d (p ++ [(i0, d.token)]) r h with
          ⟨m2, p2, hocc, hloc⟩ | ⟨m2, p2, i2, c2, hocc, hidx, hexp⟩
        · exact Or.inl ⟨0, d, m2, p2, by simp, by simpa using hocc, hloc⟩
        · exact Or.inr (Or.inl ⟨0, d, m2, p2, i2, c2, by simp, by simpa using hocc, hidx, hexp⟩)
      · exact Or.inr (Or.inr ⟨0, d, by simp, h⟩)
    · rcases mem_specRegsImports_src rest p (i0 + 1) r h with
        ⟨j, c, m2, p2, hj, hocc, hloc⟩ | ⟨j, c, m2, p2, i2, c2, hj, hocc, hidx, hexp⟩ |
        ⟨j, c, hj, hexp⟩
      · refine Or.inl ⟨j + 1, c, m2, p2, by simpa using hj, ?_, hloc⟩
        have harith : i0 + (j + 1) = (i0 + 1) + j := by omega
        rw [harith]; exact hocc
      · refine Or.inr (Or.inl ⟨j + 1, c, m2, p2, i2, c2, by simpa using hj, ?_, hidx, hexp⟩)
        have harith : i0 + (j + 1) = (i0 + 1) + j := by omega
        rw [harith]; exact hocc
      · exact Or.inr (Or.inr ⟨j + 1, c, by simpa using hj, hexp⟩)

end

theorem occursAt_providerReg_mem {root : ModuleDecl} {p0 : Path} {M : ModuleDecl} {pM : Path}
    (hocc : OccursAt root p0 M pM) (t : Token) (ht : t ∈ M.providersCtors) :
    (⟨pM, t, M.isGlobal && isExportedProvider M t, none⟩ : Reg) ∈ specRegs root p0 :=
  occursAt_specRegs_subset hocc _ (by
    rw [specRegs_def]
    exact List.mem_append_left _ ((mem_localRegs_iff M pM _).mpr (Or.inl ⟨t, ht, rfl⟩)))

/-! ## Claim theorems: module visibility and build -/

/-- C1 counterexample: module `modP` imports `modM` (which declares and
exports provider constructor 5) and the sibling `modS` (which does not
use `modM` as an import).  After a successful build, 5 IS resolvable from
the sibling's scope `[(0,1), (1,3)]` — the export is registered into the
scope `[(0,1)]` of the importer, an ancestor of every sibling's scope — which
falsifies the claimed non-resolvability from sibling scopes. -/
theorem export_sibling_visible_counterexample :
    newModuleE oracleOk modP [(0, 1)]
      = .ok (specInst modP [(0, 1)], specRegs modP [(0, 1)]) ∧
    resolvable (specRegs modP [(0, 1)]) 5 [(0, 1), (1, 3)] = true :=
  ⟨rfl, by decide⟩

/-- C1 amended: for a non-global module `M` declaring an exported provider
`t`, after a successful build `t` is resolvable from `M`'s own scope, from
the scope of the importing module, and — because the export is registered
into the importer's scope — from every descendant of the importer's scope,
which includes the scopes of sibling modules that do not import `M`. -/
theorem export_visibility_amended (o : Oracle) (root : ModuleDecl) (p0 : Path)
    (inst : ModInst) (regs : List Reg) (par : ModuleDecl) (pp : Path) (i : Nat)
    (M : ModuleDecl) (t : Token)
    (hbuild : newModuleE o root p0 = .ok (inst, regs))
    (hocc : OccursAt root p0 par pp)
    (himp : par.imports[i]? = some M)
    (hng : M.isGlobal = false)
    (hexp : t ∈ M.exportsCtors)
    (hprov : t ∈ M.providersCtors) :
    resolvable regs t (pp ++ [(i, M.token)]) = true ∧
    resolvable regs t pp = true ∧
    ∀ s : Path, pp <+: s → resolvable regs t s = true := by
  obtain ⟨-, hregs⟩ := newModuleE_ok o root p0 inst regs hbuild
  subst hregs
  have hmem : (⟨pp, t, false, none⟩ : Reg) ∈ specRegs root p0 :=
    occursAt_exportRegs_subset hocc himp _
      ((mem_exportRegs_iff M pp _).mpr ⟨hng, t, hexp, rfl⟩)
  have hgen : ∀ s : Path, pp <+: s → resolvable (specRegs root p0) t s = true := by
    intro s hs
    exact (resolvable_iff _ t s).mpr ⟨⟨pp, t, false, none⟩, hmem, rfl, rfl, Or.inr hs⟩
  exact ⟨hgen _ (List.prefix_append _ _), hgen _ (List.prefix_refl _), hgen⟩

/-- Witness for C1 (amended): in the concrete `modP` build, the export 5 of
`modM` is resolvable from the importer's scope. -/
theorem export_visibility_amended_witness :
    resolvable (specRegs modP [(0, 1)]) 5 [(0, 1)] = true :=
  (export_visibility_amended oracleOk modP [(0, 1)] (specInst modP [(0, 1)])
    (specRegs modP [(0, 1)]) modP [(0, 1)] 0 modM 5 rfl (.here _ _) rfl rfl
    (by decide) (by decide)).2.1

/-- C2: for a global module `M`, a provider constructor whose identity
matches a declared export constructor is resolvable from every scope
whatsoever; a provider constructor that is not so exported — assuming its
token is declared by no other node of the tree — is resolvable exactly
from `M`'s own scope and its descendants. -/
theorem global_module_visibility (o : Oracle) (root : ModuleDecl) (p0 : Path)
    (inst : ModInst) (regs : List Reg) (M : ModuleDecl) (pM : Path)
    (hbuild : newModuleE o root p0 = .ok (inst, regs))
    (hocc : OccursAt root p0 M pM)
    (hglob : M.isGlobal = true) :
    (∀ t : Token, t ∈ M.providersCtors → isExportedProvider M t = true →
      ∀ s : Path, resolvable regs t s = true) ∧
    (∀ t : Token, t ∈ M.providersCtors → isExportedProvider M t = false →
      (∀ m2 p2, OccursAt root p0 m2 p2 → (m2 = M ∧ p2 = pM) ∨ mentionsTok m2 t = false) →
      ∀ s : Path, (resolvable regs t s = true ↔ pM <+: s)) := by
  obtain ⟨-, hregs⟩ := newModuleE_ok o root p0 inst regs hbuild
  subst hregs
  constructor
  · intro t ht hexp s
    refine (resolvable_iff _ t s).mpr ⟨_, occursAt_providerReg_mem hocc t ht, rfl, rfl, Or.inl ?_⟩
    simp [hglob, hexp]
  · intro t ht hexp hsole s
    constructor
    · intro hres
      rcases (resolvable_iff _ t s).mp hres with ⟨r, hr, htok, hgrp, hvis⟩
      rcases mem_specRegs_src root p0 r hr with
        ⟨m2, p2, hocc2, hloc⟩ | ⟨m2, p2, i2, c2, hocc2, hidx, hexp2⟩
      · rcases (mem_localRegs_iff m2 p2 r).mp hloc with
          ⟨t2, ht2, rfl⟩ | ⟨c3, hc3, rfl⟩ | ⟨c3, hc3, g, hg, rfl⟩
        · obtain rfl : t = t2 := htok.symm
          rcases hsole m2 p2 hocc2 with ⟨rfl, rfl⟩ | hment
          · rcases hvis with hv | hv
            · rw [hglob, hexp] at hv
              simp at hv
            · exact hv
          · exact absurd ht2 ((mentionsTok_false_spec m2 t hment).1)
        · simp at hgrp
        · simp at hgrp
      · rcases (mem_exportRegs_iff c2 p2 r).mp hexp2 with ⟨hng2, t2, ht2, rfl⟩
        obtain rfl : t = t2 := htok.symm
        have hocc3 : OccursAt root p0 c2 (p2 ++ [(i2, c2.token)]) := .child hocc2 hidx
        rcases hsole c2 _ hocc3 with ⟨rfl, hpeq⟩ | hment
        · have hcontra := (isExportedProvider_iff c2 t).mpr ht2
          rw [hexp] at hcontra
          cases hcontra
        · exact absurd ht2 ((mentionsTok_false_spec c2 t hment).2)
    · intro hs
      refine (resolvable_iff _ t s).mpr
        ⟨_, occursAt_providerReg_mem hocc t ht, rfl, rfl, Or.inr ?_⟩
      exact hs

/-- Witness for C2: in the concrete global module `modG` (providers 5 and
6, export 5) built at `[(0,7)]`, 5 is resolvable from the unrelated scope
`[(3,3)]`, while resolvability of the non-exported 6 from a scope is
exactly descent from `[(0,7)]`. -/
theorem global_module_visibility_witness :
    resolvable (specRegs modG [(0, 7)]) 5 [(3, 3)] = true ∧
    (resolvable (specRegs modG [(0, 7)]) 6 [(0, 7)] = true ↔ [(0, 7)] <+: [(0, 7)]) := by
  have h := global_module_visibility oracleOk modG [(0, 7)] (specInst modG [(0, 7)])
    (specRegs modG [(0, 7)]) modG [(0, 7)] rfl (.here _ _) rfl
  exact ⟨h.1 5 (by decide) (by decide) [(3, 3)],
    h.2 6 (by decide) (by decide)
      (fun m2 p2 hocc2 => Or.inl (@occursAt_leaf modG [(0, 7)] rfl m2 p2 hocc2)) [(0, 7)]⟩

/-- C7: a successful build performs, in order: the module's own provider
registrations, then its controller registrations, then for each declared
entry of the imports, in declaration order, the recursive child build in a child scope of
this module's scope followed by the propagation of that child's exports
into this module's scope — and the propagation is empty when the child is
global.  The returned instance links the children, in declaration order,
to the parent. -/
theorem build_step_order (o : Oracle) (m : ModuleDecl) (p : Path) (inst : ModInst)
    (regs : List Reg) (hbuild : newModuleE o m p = .ok (inst, regs)) :
    regs = providerRegs m p ++ controllerRegs m p ++ specRegsImports m.imports p 0 ∧
    inst = ModInst.mk m p (specInstImports m.imports p 0) ∧
    (∀ (c : ModuleDecl) (rest : List ModuleDecl) (q : Path) (i : Nat),
      specRegsImports (c :: rest) q i =
        specRegs c (q ++ [(i, c.token)]) ++ exportRegs c q ++ specRegsImports rest q (i + 1)) ∧
    (∀ (c : ModuleDecl) (rest : List ModuleDecl) (q : Path) (i : Nat),
      specInstImports (c :: rest) q i =
        specInst c (q ++ [(i, c.token)]) :: specInstImports rest q (i + 1)) ∧
    (∀ (c : ModuleDecl) (q : Path), c.isGlobal = true → exportRegs c q = []) := by
  obtain ⟨hinst, hregs⟩ := newModuleE_ok o m p inst regs hbuild
  refine ⟨?_, ?_, fun c rest q i => rfl, fun c rest q i => rfl,
    fun c q hg => by simp [exportRegs, hg]⟩
  · rw [hregs, specRegs_def]; rfl
  · rw [hinst, specInst_def]

/-- Witness for C7: the concrete `modP` build decomposes into its stages. -/
theorem build_step_order_witness :
    specRegs modP [(0, 1)] = providerRegs modP [(0, 1)] ++ controllerRegs modP [(0, 1)]
      ++ specRegsImports modP.imports [(0, 1)] 0 :=
  (build_step_order oracleOk modP [(0, 1)] (specInst modP [(0, 1)])
    (specRegs modP [(0, 1)]) rfl).1

/-- C8: every error returned by the build carries a stage description at
its outermost layer and bottoms out in an originating container error, and
a build error makes `New` return an error as well (the `App` is never
constructed from a failed build; the `Except` result type has no
partial-success case). -/
theorem build_error_aborts :
    (∀ (o : Oracle) (m : ModuleDecl) (p : Path) (e : BuildErr),
      newModuleE o m p = .error e →
        hasStageDesc e = true ∧ ∃ ps ts, origin e = .digErr ps ts) ∧
    (∀ (o : Oracle) (root : ModuleDecl) (e : BuildErr),
      newModuleE o root [(0, root.token)] = .error e →
        ∃ e2 : BuildErr, NewE o root = .error e2) := by
  refine ⟨fun o m p e h => newModuleE_error o m p e h, fun o root e h => ?_⟩
  unfold NewE
  split
  · exact ⟨_, rfl⟩
  · exact ⟨e, by rw [h]⟩

/-- Witness for C8: with an always-failing container, building `modFail`
(one provider constructor) yields the provider-stage wrapped error and
`New` aborts. -/
theorem build_error_aborts_witness :
    (hasStageDesc (BuildErr.errRegisteringProviders
        (.errProvidingProvider 1 (.digErr [(0, 4)] 1))) = true ∧
      ∃ ps ts, origin (BuildErr.errRegisteringProviders
        (.errProvidingProvider 1 (.digErr [(0, 4)] 1))) = .digErr ps ts) ∧
    ∃ e2 : BuildErr, NewE oracleFail modFail = .error e2 :=
  ⟨build_error_aborts.1 oracleFail modFail [(0, 4)]
      (.errRegisteringProviders (.errProvidingProvider 1 (.digErr [(0, 4)] 1))) rfl,
    build_error_aborts.2 oracleFail modFail
      (.errRegisteringProviders (.errProvidingProvider 1 (.digErr [(0, 4)] 1))) rfl⟩

/-- C9: a token declared only through the value-based `Providers` /
`Exports` fields — that is, mentioned by no constructor list anywhere in
the tree — is registered by the build into no scope and is therefore
resolvable from no scope at all. -/
theorem value_based_fields_unresolvable (o : Oracle) (root : ModuleDecl) (p0 : Path)
    (inst : ModInst) (regs : List Reg) (M : ModuleDecl) (pM : Path) (t : Token)
    (hbuild : newModuleE o root p0 = .ok (inst, regs))
    (hocc : OccursAt root p0 M pM)
    (hval : t ∈ M.providers ∨ t ∈ M.exports)
    (hment : ∀ m2 p2, OccursAt root p0 m2 p2 → mentionsTok m2 t = false) :
    ∀ s : Path, resolvable regs t s = false := by
  obtain ⟨-, hregs⟩ := newModuleE_ok o root p0 inst regs hbuild
  subst hregs
  intro s
  cases hres : resolvable (specRegs root p0) t s with
  | false => rfl
  | true =>
    exfalso
    rcases (resolvable_iff _ t s).mp hres with ⟨r, hr, htok, hgrp, hvis⟩
    rcases mem_specRegs_src root p0 r hr with
      ⟨m2, p2, hocc2, hloc⟩ | ⟨m2, p2, i2, c2, hocc2, hidx, hexp2⟩
    · rcases (mem_localRegs_iff m2 p2 r).mp hloc with
        ⟨t2, ht2, rfl⟩ | ⟨c3, hc3, rfl⟩ | ⟨c3, hc3, g, hg, rfl⟩
      · obtain rfl : t = t2 := htok.symm
        exact (mentionsTok_false_spec m2 t (hment m2 p2 hocc2)).1 ht2
      · simp at hgrp
      · simp at hgrp
    · rcases (mem_exportRegs_iff c2 p2 r).mp hexp2 with ⟨hng2, t2, ht2, rfl⟩
      obtain rfl : t = t2 := htok.symm
      exact (mentionsTok_false_spec c2 t (hment c2 _ (.child hocc2 hidx))).2 ht2

/-- Witness for C9: the concrete module `modV` declares component 5 only in
its value-based `Providers` and `Exports` fields; after the build, 5 is not
resolvable even from the module's own scope. -/
theorem value_based_fields_unresolvable_witness :
    resolvable (specRegs modV [(0, 8)]) 5 [(0, 8)] = false :=
  value_based_fields_unresolvable oracleOk modV [(0, 8)] (specInst modV [(0, 8)])
    (specRegs modV [(0, 8)]) modV [(0, 8)] 5 rfl (.here _ _) (Or.inl (by decide))
    (fun m2 p2 hocc2 => by
      obtain ⟨rfl, rfl⟩ := @occursAt_leaf modV [(0, 8)] rfl m2 p2 hocc2
      decide) [(0, 8)]

end Godi
